import Mathlib

set_option maxHeartbeats 1000000

/-!
Shallow embedding of `scripts/setup-supabase.py` (AIPowerGrid/aipg-art-gallery).

The script is a one-shot CLI: it loads a `.env` key-value file, extracts a
project reference from a Supabase URL via `re.search`, echoes a SQL schema
file, and prints OAuth setup instructions.  All observable behaviour is the
ordered list of `print` payloads (all on standard output), plus the process
exit code.  We model it here function by function.
-/

/-! ## The regex `https://([^.]+)\.supabase\.co`, as used by `re.search` -/

def HTTPS : List Char := "https://".data

def SUFF : List Char := ".supabase.co".data

/-- Greedy backtracking for the `([^.]+)` group: `capRev` is the reversed
current capture (initially the maximal run of non-dot characters), `rest` the
remaining input.  Try the longest capture first; on failure give one character
back and retry, failing once the capture would become empty. -/
def shrinkRev : List Char → List Char → Option (List Char)
  | [], _ => none
  | c :: cr, rest =>
    if SUFF.isPrefixOf rest then some ((c :: cr).reverse)
    else shrinkRev cr (c :: rest)

/-- Attempt to match `https://([^.]+)\.supabase\.co` at the start of `s`,
returning the capture group. -/
def matchAt (s : List Char) : Option (List Char) :=
  if HTTPS.isPrefixOf s then
    let rest := s.drop HTTPS.length
    let run := rest.takeWhile (fun c => c != '.')
    shrinkRev run.reverse (rest.drop run.length)
  else none

/-- `re.search`: try every start position, leftmost first. -/
def searchRegex : List Char → Option (List Char)
  | [] => none
  | c :: t =>
    match matchAt (c :: t) with
    | some r => some r
    | none => searchRegex t

/-- `extract_project_ref(supabase_url)`:
`match = re.search(r'https://([^.]+)\.supabase\.co', supabase_url)`;
`return match.group(1) if match else None`. -/
def extract_project_ref (supabase_url : String) : Option String :=
  (searchRegex supabase_url.data).map (fun l => String.mk l)

/-! ## `load_env`: the `.env` parser -/

/-- Characters removed by Python's `str.strip()` (the ASCII whitespace set). -/
def pyWS (c : Char) : Bool :=
  c == ' ' || c == '\t' || c == '\n' || c == '\r' || c == '\x0b' || c == '\x0c'

/-- Python `line.strip()`. -/
def strip (l : List Char) : List Char :=
  ((l.dropWhile pyWS).reverse.dropWhile pyWS).reverse

/-- Python `line.split('=', 1)`: `some (before, after)` split at the first
`'='`, or `none` when the line contains no `'='` (in which case the script
skips the line, since `len(parts) != 2`). -/
def splitOnceEq : List Char → Option (List Char × List Char)
  | [] => none
  | c :: t =>
    if c = '=' then some ([], t)
    else (splitOnceEq t).map (fun p => (c :: p.1, p.2))

/-- One iteration of the `for line in f` loop body of `load_env`:
strip the line; keep it only when non-empty and not starting with `'#'`;
split on the first `'='`; strip key and value. -/
def parseLine (line : String) : Option (String × String) :=
  let l := strip line.data
  if l ≠ [] ∧ l.head? ≠ some '#' then
    match splitOnceEq l with
    | some (k, v) => some (String.mk (strip k), String.mk (strip v))
    | none => none
  else none

/-- All `env[...] = ...` assignments made by `load_env`, in file order. -/
def parseLines (lines : List String) : List (String × String) :=
  lines.filterMap parseLine

/-- Python `dict` lookup over the assignment list: the last assignment to a
key wins (`env.get(k)`). -/
def envGet (env : List (String × String)) (k : String) : Option String :=
  (env.reverse.find? (fun p => p.1 == k)).map (fun p => p.2)

/-- `load_env()`: raises `FileNotFoundError('.env file not found')` when the
file is absent, otherwise returns the parsed mapping.  The file is modelled as
its list of lines. -/
def load_env (envFile : Option (List String)) : Except String (List (String × String)) :=
  match envFile with
  | none => Except.error ".env file not found"
  | some lines => Except.ok (parseLines lines)

/-- Python truthiness of an optional string (`if not supabase_url`,
`if service_role_key`): `None` and `""` are falsy. -/
def truthy : Option String → Bool
  | none => false
  | some s => !s.isEmpty

/-! ## The callback URL: `supabase_url.replace("/rest/v1", "")` -/

def restV1 : List Char := "/rest/v1".data

/-- Python `str.replace("/rest/v1", "")`: scan left to right, removing every
non-overlapping occurrence of the pattern. -/
def removeRestV1 : List Char → List Char
  | [] => []
  | c :: t =>
    if restV1.isPrefixOf (c :: t) then removeRestV1 ((c :: t).drop restV1.length)
    else c :: removeRestV1 t
termination_by l => l.length
decreasing_by
  · have h8 : restV1.length = 8 := rfl
    simp only [List.length_drop, List.length_cons, h8]
    omega
  · simp

/-- `callback_url = f'{supabase_url.replace("/rest/v1", "")}/auth/v1/callback'`. -/
def callback_url (supabase_url : String) : String :=
  String.mk (removeRestV1 supabase_url.data) ++ "/auth/v1/callback"

/-- Index of the leftmost occurrence of `"/rest/v1"` in `s`, if any. -/
def findPat : List Char → Option Nat
  | [] => none
  | c :: t =>
    if restV1.isPrefixOf (c :: t) then some 0
    else (findPat t).map (fun n => n + 1)

/-- Independent specification of replace-all: repeatedly delete the leftmost
occurrence of `"/rest/v1"` until none remains. -/
def removeAllSpec (s : List Char) : List Char :=
  match h : findPat s with
  | none => s
  | some i => s.take i ++ removeAllSpec (s.drop (i + restV1.length))
termination_by s.length
decreasing_by
  cases s with
  | nil => simp [findPat] at h
  | cons c t =>
    have h8 : restV1.length = 8 := rfl
    simp only [List.length_drop, List.length_cons, h8]
    omega

/-- Modelled from the spec sentence "The derived callback URL equals the
configured URL with any `/rest/v1` suffix removed, followed by
`/auth/v1/callback`": the pattern is removed only when it is a suffix.  Used
solely to compare the claim's wording against `callback_url`. -/
def specSuffixCallback (supabase_url : String) : String :=
  (if restV1.isSuffixOf supabase_url.data then
    String.mk (supabase_url.data.take (supabase_url.data.length - restV1.length))
  else supabase_url) ++ "/auth/v1/callback"

/-! ## The printed output of `main()` -/

/-- Result of one run: the ordered `print` payloads written to standard
output, the lines written to standard error (the script never writes any),
and the process exit code. -/
structure RunResult where
  out : List String
  err : List String
  exitCode : Nat
deriving DecidableEq, Repr

/-- `print('🚀 Supabase Database Setup\n')`. -/
def banner : String := "🚀 Supabase Database Setup\n"

/-- `'─' * 60`. -/
def sep60 : String := String.mk (List.replicate 60 '─')

/-- The prints from the banner up to (and including) the `'─' * 60` line that
precedes the service-role-key branch. -/
def preLines (project_ref supabase_url : String) : List String :=
  [banner,
   "📋 Project Reference: " ++ project_ref,
   "📋 Supabase URL: " ++ supabase_url ++ "\n",
   "📝 SQL Schema Execution:",
   sep60]

/-- The prints of the `if service_role_key:` branch. -/
def keyFoundLines (project_ref : String) : List String :=
  ["✅ Service role key found",
   "\n⚠️  Note: Supabase JS/Python clients cannot execute raw SQL directly.",
   "   You have two options:\n",
   "   Option 1: Use Supabase Dashboard (Recommended)",
   "   1. Go to: https://supabase.com/dashboard/project/" ++ project_ref ++ "/sql/new",
   "   2. Copy and paste the SQL below",
   "   3. Click \"Run\"\n",
   "   Option 2: Use Supabase CLI",
   "   1. Install: npm install -g supabase",
   "   2. Login: supabase login",
   "   3. Link: supabase link --project-ref " ++ project_ref,
   "   4. Push: supabase db push\n"]

/-- The prints of the `else` branch (missing service-role key). -/
def keyMissingLines : List String :=
  ["⚠️  SUPABASE_SERVICE_ROLE_KEY not found in .env",
   "   Get it from: Settings > API > service_role key\n",
   "   Then add to .env:",
   "   SUPABASE_SERVICE_ROLE_KEY=your_key_here\n"]

/-- The prints of the OAuth configuration block. -/
def oauthLines (project_ref cb : String) : List String :=
  ["\n🔐 OAuth Provider Configuration:",
   sep60,
   "   Configure at: https://supabase.com/dashboard/project/" ++ project_ref ++ "/auth/providers\n",
   "   Required redirect URL for ALL providers:",
   "   " ++ cb ++ "\n",
   "   Providers to configure:",
   "   1. GitHub",
   "   2. Google",
   "   3. Facebook",
   "   4. Twitter (X)",
   "   5. Apple\n",
   "   For each provider:",
   "   - Enable the provider",
   "   - Add Client ID and Client Secret",
   "   - Set redirect URL to: " ++ cb,
   "   - Save configuration",
   sep60]

/-- The two closing prints. -/
def finalLines : List String :=
  ["\n✨ Setup instructions displayed above!",
   "   Once SQL is executed and OAuth is configured, restart the app."]

/-- Every print after the echoed SQL: the closing `'─' * 60`, the OAuth block
and the closing lines. -/
def postSqlLines (project_ref cb : String) : List String :=
  sep60 :: (oauthLines project_ref cb ++ finalLines)

/-- The whole standard-output trace of a run that reaches the end of `main`. -/
def successOut (project_ref supabase_url sql cb : String) (keyPresent : Bool) : List String :=
  preLines project_ref supabase_url
    ++ (if keyPresent then keyFoundLines project_ref else keyMissingLines)
    ++ ["📋 SQL Schema to Execute:", sep60]
    ++ sql :: postSqlLines project_ref cb

/-- `main()`.  Inputs: the `.env` file (as its list of lines, `none` when the
file does not exist) and the `supabase/schema.sql` file (as its text, `none`
when absent).  `sys.exit(1)` raises `SystemExit`, which `except Exception`
does not catch, so every `sys.exit(1)` terminates the run with exit code 1;
falling off the end of `main` gives exit code 0.  The `FileNotFoundError`
raised by `load_env` is caught by the outermost handler and printed as
`f'❌ Error: {e}'`. -/
def mainRun (envFile : Option (List String)) (schemaFile : Option String) : RunResult :=
  match load_env envFile with
  | Except.error e => ⟨[banner, "❌ Error: " ++ e], [], 1⟩
  | Except.ok env =>
    let supabase_url := envGet env "NEXT_PUBLIC_SUPABASE_URL"
    let service_role_key := envGet env "SUPABASE_SERVICE_ROLE_KEY"
    if truthy supabase_url then
      let url := supabase_url.getD ""
      let pref := extract_project_ref url
      if truthy pref then
        let project_ref := pref.getD ""
        match schemaFile with
        | some sql =>
          ⟨successOut project_ref url sql (callback_url url) (truthy service_role_key), [], 0⟩
        | none =>
          ⟨[banner,
            "📋 Project Reference: " ++ project_ref,
            "📋 Supabase URL: " ++ url ++ "\n",
            "❌ supabase/schema.sql not found"], [], 1⟩
      else ⟨[banner, "❌ Invalid Supabase URL format"], [], 1⟩
    else ⟨[banner, "❌ NEXT_PUBLIC_SUPABASE_URL not found in .env"], [], 1⟩

/-- `l` is printed as a contiguous block of the output `out`. -/
def Appears (l out : List String) : Prop := ∃ a b, out = a ++ (l ++ b)

/-! ## Lemmas: the regex model -/

/-- A string that the group `([^.]+)` can capture: non-empty and dot-free. -/
def validSeg (seg : List Char) : Prop := seg ≠ [] ∧ ∀ c ∈ seg, c ≠ '.'

lemma SUFF_cons : SUFF = '.' :: "supabase.co".data := rfl

lemma suff_isPrefixOf_cons_false (c : Char) (rest : List Char) (hc : c ≠ '.') :
    SUFF.isPrefixOf (c :: rest) = false := by
  rw [Bool.eq_false_iff]
  intro hpre
  rw [List.isPrefixOf_iff_prefix] at hpre
  rcases hpre with ⟨t, ht⟩
  rw [SUFF_cons] at ht
  simp only [List.cons_append, List.cons.injEq] at ht
  exact hc ht.1.symm

lemma shrinkRev_spec (capRev : List Char) (rest : List Char)
    (h : ∀ c ∈ capRev, c ≠ '.') :
    shrinkRev capRev rest =
      if capRev ≠ [] ∧ SUFF.isPrefixOf rest then some capRev.reverse else none := by
  induction capRev generalizing rest with
  | nil => simp [shrinkRev]
  | cons c cr ih =>
    by_cases hp : SUFF.isPrefixOf rest
    · simp [shrinkRev, hp]
    · have hc : c ≠ '.' := h c (List.mem_cons_self _ _)
      have hcr : ∀ x ∈ cr, x ≠ '.' := fun x hx => h x (List.mem_cons_of_mem _ hx)
      rw [shrinkRev]
      simp only [hp, Bool.false_eq_true, if_false, ih (c :: rest) hcr,
        suff_isPrefixOf_cons_false c rest hc]
      simp [hp]

lemma drop_takeWhile_length (p : Char → Bool) (l : List Char) :
    l.drop (l.takeWhile p).length = l.dropWhile p := by
  induction l with
  | nil => simp
  | cons c t ih =>
    by_cases hc : p c
    · simp [List.takeWhile_cons, List.dropWhile_cons, hc, ih]
    · simp [List.takeWhile_cons, List.dropWhile_cons, hc]

lemma takeWhile_dotfree_append (a b : List Char) (ha : ∀ c ∈ a, c ≠ '.') :
    (a ++ '.' :: b).takeWhile (fun c => c != '.') = a := by
  have : ∀ c ∈ a, (c != '.') = true := by
    intro c hc
    simpa [bne_iff_ne] using ha c hc
  rw [List.takeWhile_append_of_pos this]
  simp [List.takeWhile_cons]

lemma matchAt_some_iff (s seg : List Char) :
    matchAt s = some seg ↔
      validSeg seg ∧ ∃ post, s = HTTPS ++ (seg ++ (SUFF ++ post)) := by
  constructor
  · intro h
    rw [matchAt] at h
    by_cases hpre : HTTPS.isPrefixOf s
    · simp only [hpre, if_true] at h
      rw [List.isPrefixOf_iff_prefix] at hpre
      rcases hpre with ⟨rest, hrest⟩
      have hdrop : s.drop HTTPS.length = rest := by
        rw [← hrest]; exact List.drop_left HTTPS rest
      rw [hdrop] at h
      set run := rest.takeWhile (fun c => c != '.') with hrun
      have hmem : ∀ c ∈ run.reverse, c ≠ '.' := by
        intro c hc
        rw [List.mem_reverse] at hc
        have := List.mem_takeWhile_imp hc
        simpa [bne_iff_ne] using this
      rw [shrinkRev_spec run.reverse _ hmem] at h
      by_cases hcond : run.reverse ≠ [] ∧ SUFF.isPrefixOf (rest.drop run.length)
      · rw [if_pos hcond] at h
        have hseg : seg = run := by
          have := h
          simp only [List.reverse_reverse, Option.some.injEq] at this
          exact this.symm
        rcases hcond with ⟨hne, hsuf⟩
        rw [List.isPrefixOf_iff_prefix] at hsuf
        rcases hsuf with ⟨post, hpost⟩
        refine ⟨⟨?_, ?_⟩, post, ?_⟩
        · intro hnil
          exact hne (by simp [hseg ▸ hnil])
        · intro c hc
          have : c ∈ run.reverse := by rw [List.mem_reverse]; exact hseg ▸ hc
          exact hmem c this
        · rw [← hrest]
          congr 1
          rw [hseg]
          have hdw : SUFF ++ post = rest.dropWhile (fun c => c != '.') := by
            rw [hpost, drop_takeWhile_length]
          rw [hdw]
          exact (List.takeWhile_append_dropWhile _ rest).symm
      · rw [if_neg hcond] at h
        exact absurd h (by simp)
    · simp [hpre] at h
  · rintro ⟨⟨hne, hdot⟩, post, hs⟩
    rw [matchAt]
    have hpre : HTTPS.isPrefixOf s = true := by
      rw [List.isPrefixOf_iff_prefix, hs]
      exact List.prefix_append _ _
    simp only [hpre, if_true]
    have hdrop : s.drop HTTPS.length = seg ++ (SUFF ++ post) := by
      rw [hs]; exact List.drop_left HTTPS _
    rw [hdrop]
    have hsuffform : seg ++ (SUFF ++ post) = seg ++ '.' :: ("supabase.co".data ++ post) := by
      rw [SUFF_cons]; simp
    have htake : (seg ++ (SUFF ++ post)).takeWhile (fun c => c != '.') = seg := by
      rw [hsuffform]; exact takeWhile_dotfree_append seg _ hdot
    rw [htake]
    have hdrop2 : (seg ++ (SUFF ++ post)).drop seg.length = SUFF ++ post :=
      List.drop_left seg _
    rw [hdrop2]
    have hmem : ∀ c ∈ seg.reverse, c ≠ '.' := by
      intro c hc; rw [List.mem_reverse] at hc; exact hdot c hc
    rw [shrinkRev_spec seg.reverse _ hmem]
    have hcond : seg.reverse ≠ [] ∧ SUFF.isPrefixOf (SUFF ++ post) := by
      refine ⟨by simp [hne], ?_⟩
      rw [List.isPrefixOf_iff_prefix]
      exact List.prefix_append _ _
    rw [if_pos hcond]
    simp

lemma matchAt_nil : matchAt [] = none := by
  rw [matchAt]
  have : HTTPS.isPrefixOf ([] : List Char) = false := by decide
  simp [this]

lemma searchRegex_of_matchAt (s seg : List Char) (h : matchAt s = some seg) :
    searchRegex s = some seg := by
  cases s with
  | nil => rw [matchAt_nil] at h; exact absurd h (by simp)
  | cons c t => rw [searchRegex, h]

/-- Soundness and leftmostness of `re.search`: a returned capture arises from
an occurrence of the pattern, and no occurrence starts strictly earlier. -/
lemma searchRegex_some (s seg : List Char) (h : searchRegex s = some seg) :
    ∃ pre post, s = pre ++ (HTTPS ++ (seg ++ (SUFF ++ post))) ∧ validSeg seg ∧
      ∀ pre' seg' post', validSeg seg' →
        s = pre' ++ (HTTPS ++ (seg' ++ (SUFF ++ post'))) → pre.length ≤ pre'.length := by
  induction s with
  | nil => rw [searchRegex] at h; exact absurd h (by simp)
  | cons c t ih =>
    rw [searchRegex] at h
    cases hm : matchAt (c :: t) with
    | some r =>
      rw [hm] at h
      have hr : r = seg := by simpa using h
      subst hr
      rcases (matchAt_some_iff (c :: t) r).mp hm with ⟨hv, post, hs⟩
      exact ⟨[], post, by simpa using hs, hv, fun pre' seg' post' _ _ => by simp⟩
    | none =>
      rw [hm] at h
      rcases ih h with ⟨pre, post, hs, hv, hmin⟩
      refine ⟨c :: pre, post, by simp [hs], hv, ?_⟩
      intro pre' seg' post' hv' hs'
      cases pre' with
      | nil =>
        exfalso
        have : matchAt (c :: t) = some seg' :=
          (matchAt_some_iff (c :: t) seg').mpr ⟨hv', post', by simpa using hs'⟩
        rw [hm] at this
        exact absurd this (by simp)
      | cons c' pre'' =>
        simp only [List.cons_append, List.cons.injEq] at hs'
        have := hmin pre'' seg' post' hv' hs'.2
        simp only [List.length_cons]
        omega

/-- Completeness of `re.search`: if the pattern occurs anywhere in `s`, the
search succeeds. -/
lemma searchRegex_isSome (s : List Char)
    (h : ∃ pre seg post, validSeg seg ∧ s = pre ++ (HTTPS ++ (seg ++ (SUFF ++ post)))) :
    ∃ seg', searchRegex s = some seg' := by
  induction s with
  | nil =>
    exfalso
    rcases h with ⟨pre, seg, post, _, hs⟩
    have : ([] : List Char).length = (pre ++ (HTTPS ++ (seg ++ (SUFF ++ post)))).length := by
      rw [hs]
    simp [HTTPS] at this
    omega
  | cons c t ih =>
    rcases h with ⟨pre, seg, post, hv, hs⟩
    cases hm : matchAt (c :: t) with
    | some r => exact ⟨r, searchRegex_of_matchAt _ _ hm⟩
    | none =>
      cases pre with
      | nil =>
        exfalso
        have : matchAt (c :: t) = some seg :=
          (matchAt_some_iff (c :: t) seg).mpr ⟨hv, post, by simpa using hs⟩
        rw [hm] at this
        exact absurd this (by simp)
      | cons c' pre'' =>
        simp only [List.cons_append, List.cons.injEq] at hs
        rcases ih ⟨pre'', seg, post, hv, hs.2⟩ with ⟨seg', hseg'⟩
        refine ⟨seg', ?_⟩
        rw [searchRegex, hm, hseg']

/-- The capture group `([^.]+)` is never empty, so `extract_project_ref`
never returns `some ""`. -/
lemma extract_ne_some_empty (u : String) (r : String)
    (h : extract_project_ref u = some r) : r ≠ "" := by
  rw [extract_project_ref] at h
  cases hs : searchRegex u.data with
  | none => rw [hs] at h; exact absurd h (by simp)
  | some l =>
    rw [hs] at h
    simp at h
    rcases searchRegex_some u.data l hs with ⟨_, _, _, ⟨hne, _⟩, _⟩
    intro hr
    rw [← h] at hr
    apply hne
    have : (String.mk l).data = "".data := by rw [hr]
    simpa using this

/-! ## Claims about `extract_project_ref` (C3, C9) -/

/-- C3: for every URL of the shape `https://{ref}.supabase.co` where `{ref}`
is a non-empty segment containing no dot, `extract_project_ref` returns
`{ref}`. -/
theorem C3_extract_wellformed (r : String) (h1 : r.data ≠ [])
    (h2 : ∀ c ∈ r.data, c ≠ '.') :
    extract_project_ref ("https://" ++ r ++ ".supabase.co") = some r := by
  have hdata : ("https://" ++ r ++ ".supabase.co").data
      = HTTPS ++ (r.data ++ (SUFF ++ [])) := by
    simp only [String.data_append, HTTPS, SUFF, List.append_assoc, List.append_nil]
  rw [extract_project_ref, hdata,
    searchRegex_of_matchAt _ r.data ((matchAt_some_iff _ _).mpr ⟨⟨h1, h2⟩, [], rfl⟩)]
  rfl

/-- Witness for C3 at the spec's own example: URL
`https://abcdefgh.supabase.co` yields `abcdefgh`. -/
theorem C3_extract_wellformed_witness :
    extract_project_ref ("https://" ++ "abcdefgh" ++ ".supabase.co") = some "abcdefgh" :=
  C3_extract_wellformed "abcdefgh" (by decide) (by decide)

/-- C9: matching is unanchored.  Whenever the input contains
`https://{seg}.supabase.co` as a substring for some non-empty dot-free `seg`
(arbitrary text may precede or follow), `extract_project_ref` succeeds and
returns the capture of the leftmost such occurrence. -/
theorem C9_unanchored (pre seg post : List Char) (h : validSeg seg) :
    ∃ seg' pre' post',
      extract_project_ref (String.mk (pre ++ (HTTPS ++ (seg ++ (SUFF ++ post)))))
        = some (String.mk seg') ∧
      pre ++ (HTTPS ++ (seg ++ (SUFF ++ post)))
        = pre' ++ (HTTPS ++ (seg' ++ (SUFF ++ post'))) ∧
      validSeg seg' ∧
      ∀ pre'' seg'' post'', validSeg seg'' →
        pre ++ (HTTPS ++ (seg ++ (SUFF ++ post)))
          = pre'' ++ (HTTPS ++ (seg'' ++ (SUFF ++ post''))) →
        pre'.length ≤ pre''.length := by
  rcases searchRegex_isSome (pre ++ (HTTPS ++ (seg ++ (SUFF ++ post))))
      ⟨pre, seg, post, h, rfl⟩ with ⟨seg', hseg'⟩
  rcases searchRegex_some _ seg' hseg' with ⟨pre', post', hdec, hv', hmin⟩
  refine ⟨seg', pre', post', ?_, hdec, hv', hmin⟩
  rw [extract_project_ref]
  have hd : (String.mk (pre ++ (HTTPS ++ (seg ++ (SUFF ++ post))))).data
      = pre ++ (HTTPS ++ (seg ++ (SUFF ++ post))) := rfl
  rw [hd, hseg']
  rfl

/-- Witness for C9: text before and after the matched substring. -/
theorem C9_unanchored_witness :
    ∃ seg' pre' post',
      extract_project_ref (String.mk ("see ".data ++ (HTTPS ++ ("abc".data ++ (SUFF ++ " now".data)))))
        = some (String.mk seg') ∧
      "see ".data ++ (HTTPS ++ ("abc".data ++ (SUFF ++ " now".data)))
        = pre' ++ (HTTPS ++ (seg' ++ (SUFF ++ post'))) ∧
      validSeg seg' ∧
      ∀ pre'' seg'' post'', validSeg seg'' →
        "see ".data ++ (HTTPS ++ ("abc".data ++ (SUFF ++ " now".data)))
          = pre'' ++ (HTTPS ++ (seg'' ++ (SUFF ++ post''))) →
        pre'.length ≤ pre''.length :=
  C9_unanchored "see ".data "abc".data " now".data
    (show validSeg "abc".data from ⟨by decide, by decide⟩)

/-! ## Error-path lemmas about `mainRun` -/

lemma truthy_some_of_ne (s : String) (h : s ≠ "") : truthy (some s) = true := by
  have hie : s.isEmpty = false := by
    rw [Bool.eq_false_iff]
    intro hh
    exact h ((String.isEmpty_iff s).mp hh)
  simp [truthy, hie]

lemma mainRun_missing_url (lines : List String) (schemaFile : Option String)
    (hu : truthy (envGet (parseLines lines) "NEXT_PUBLIC_SUPABASE_URL") = false) :
    mainRun (some lines) schemaFile
      = ⟨[banner, "❌ NEXT_PUBLIC_SUPABASE_URL not found in .env"], [], 1⟩ := by
  simp [mainRun, load_env, hu]

lemma mainRun_invalid_url (lines : List String) (schemaFile : Option String) (url : String)
    (hu : envGet (parseLines lines) "NEXT_PUBLIC_SUPABASE_URL" = some url)
    (hne : url ≠ "")
    (hx : extract_project_ref url = none) :
    mainRun (some lines) schemaFile
      = ⟨[banner, "❌ Invalid Supabase URL format"], [], 1⟩ := by
  have hie : url.isEmpty = false := by
    rw [Bool.eq_false_iff]
    intro hh
    exact hne ((String.isEmpty_iff url).mp hh)
  simp [mainRun, load_env, hu, truthy, hie, hx]

/-! ## Claims C6 and C7 -/

/-- C6: when the configuration is missing the `NEXT_PUBLIC_SUPABASE_URL` key,
the run exits with status 1 and prints an error message that names the
missing key (the message is literally `"❌ " ++ key ++ " not found in .env"`). -/
theorem C6_missing_url_key (lines : List String) (schemaFile : Option String)
    (hu : envGet (parseLines lines) "NEXT_PUBLIC_SUPABASE_URL" = none) :
    (mainRun (some lines) schemaFile).exitCode = 1 ∧
      ("❌ " ++ "NEXT_PUBLIC_SUPABASE_URL" ++ " not found in .env")
        ∈ (mainRun (some lines) schemaFile).out := by
  have ht : truthy (envGet (parseLines lines) "NEXT_PUBLIC_SUPABASE_URL") = false := by
    rw [hu]; rfl
  rw [mainRun_missing_url lines schemaFile ht]
  exact ⟨rfl, by simp⟩

/-- Witness for C6: an `.env` file with only the service key. -/
theorem C6_missing_url_key_witness :
    (mainRun (some ["SUPABASE_SERVICE_ROLE_KEY=k"]) (some "sql")).exitCode = 1 ∧
      ("❌ " ++ "NEXT_PUBLIC_SUPABASE_URL" ++ " not found in .env")
        ∈ (mainRun (some ["SUPABASE_SERVICE_ROLE_KEY=k"]) (some "sql")).out :=
  C6_missing_url_key ["SUPABASE_SERVICE_ROLE_KEY=k"] (some "sql") (by decide)

/-- C7: for every URL value in which the pattern
`https://{seg}.supabase.co` occurs nowhere (for any non-empty dot-free
`seg`), extraction returns `none` and the run exits with status 1 after
printing the invalid-URL error. -/
theorem C7_no_match (lines : List String) (schemaFile : Option String) (url : String)
    (hu : envGet (parseLines lines) "NEXT_PUBLIC_SUPABASE_URL" = some url)
    (hne : url ≠ "")
    (hnomatch : ∀ pre seg post, validSeg seg →
      url.data ≠ pre ++ (HTTPS ++ (seg ++ (SUFF ++ post)))) :
    extract_project_ref url = none ∧
      (mainRun (some lines) schemaFile).exitCode = 1 ∧
      "❌ Invalid Supabase URL format" ∈ (mainRun (some lines) schemaFile).out := by
  have hx : extract_project_ref url = none := by
    cases hs : searchRegex url.data with
    | none => rw [extract_project_ref, hs]; rfl
    | some l =>
      exfalso
      rcases searchRegex_some url.data l hs with ⟨pre, post, hdec, hv, _⟩
      exact hnomatch pre l post hv hdec
  rw [mainRun_invalid_url lines schemaFile url hu hne hx]
  exact ⟨hx, rfl, by simp⟩

/-- Witness for C7: a URL with the wrong host.  The no-occurrence hypothesis
is discharged by checking every split position of the concrete string. -/
theorem C7_no_match_witness :
    extract_project_ref "https://example.com" = none ∧
      (mainRun (some ["NEXT_PUBLIC_SUPABASE_URL=https://example.com"]) (some "sql")).exitCode = 1 ∧
      "❌ Invalid Supabase URL format"
        ∈ (mainRun (some ["NEXT_PUBLIC_SUPABASE_URL=https://example.com"]) (some "sql")).out := by
  refine C7_no_match _ _ "https://example.com" (by decide) (by decide) ?_
  intro pre seg post hv heq
  have hlen : ("https://example.com".data).length
      = pre.length + (HTTPS.length + (seg.length + (SUFF.length + post.length))) := by
    rw [heq]; simp
  have h19 : ("https://example.com".data).length = 19 := by decide
  have h8 : HTTPS.length = 8 := by decide
  have h12 : SUFF.length = 12 := by decide
  have hseg1 : 1 ≤ seg.length := by
    cases seg with
    | nil => exact absurd rfl hv.1
    | cons c t => simp
  omega

/-! ## Success-path lemma -/

lemma mainRun_success (lines : List String) (sql url pref : String)
    (hu : envGet (parseLines lines) "NEXT_PUBLIC_SUPABASE_URL" = some url)
    (hne : url ≠ "")
    (hx : extract_project_ref url = some pref) :
    mainRun (some lines) (some sql)
      = ⟨successOut pref url sql (callback_url url)
            (truthy (envGet (parseLines lines) "SUPABASE_SERVICE_ROLE_KEY")), [], 0⟩ := by
  have hie : url.isEmpty = false := by
    rw [Bool.eq_false_iff]
    intro hh
    exact hne ((String.isEmpty_iff url).mp hh)
  have hpne : pref ≠ "" := extract_ne_some_empty url pref hx
  have hpie : pref.isEmpty = false := by
    rw [Bool.eq_false_iff]
    intro hh
    exact hpne ((String.isEmpty_iff pref).mp hh)
  simp [mainRun, load_env, hu, truthy, hie, hx, hpie]

lemma mainRun_no_schema (lines : List String) (url pref : String)
    (hu : envGet (parseLines lines) "NEXT_PUBLIC_SUPABASE_URL" = some url)
    (hne : url ≠ "")
    (hx : extract_project_ref url = some pref) :
    mainRun (some lines) none
      = ⟨[banner,
          "📋 Project Reference: " ++ pref,
          "📋 Supabase URL: " ++ url ++ "\n",
          "❌ supabase/schema.sql not found"], [], 1⟩ := by
  have hie : url.isEmpty = false := by
    rw [Bool.eq_false_iff]
    intro hh
    exact hne ((String.isEmpty_iff url).mp hh)
  have hpne : pref ≠ "" := extract_ne_some_empty url pref hx
  have hpie : pref.isEmpty = false := by
    rw [Bool.eq_false_iff]
    intro hh
    exact hpne ((String.isEmpty_iff pref).mp hh)
  simp [mainRun, load_env, hu, truthy, hie, hx, hpie]

/-! ## Claim C4 -/

/-- C4: on a completed run the echoed schema text, printed between the two
separator lines after the `📋 SQL Schema to Execute:` header, is exactly the
schema file's contents `sql` — the echoing step alters nothing. -/
theorem C4_schema_echoed_verbatim (lines : List String) (sql url pref : String)
    (hu : envGet (parseLines lines) "NEXT_PUBLIC_SUPABASE_URL" = some url)
    (hne : url ≠ "")
    (hx : extract_project_ref url = some pref) :
    Appears ["📋 SQL Schema to Execute:", sep60, sql, sep60]
      (mainRun (some lines) (some sql)).out := by
  rw [mainRun_success lines sql url pref hu hne hx]
  refine ⟨preLines pref url
      ++ (if truthy (envGet (parseLines lines) "SUPABASE_SERVICE_ROLE_KEY") then
            keyFoundLines pref else keyMissingLines),
    oauthLines pref (callback_url url) ++ finalLines, ?_⟩
  simp [successOut, postSqlLines, List.append_assoc]

/-- Witness for C4 on a concrete configuration and schema text. -/
theorem C4_schema_echoed_verbatim_witness :
    Appears ["📋 SQL Schema to Execute:", sep60, "CREATE TABLE artworks;", sep60]
      (mainRun (some ["NEXT_PUBLIC_SUPABASE_URL=https://abc.supabase.co"])
        (some "CREATE TABLE artworks;")).out :=
  C4_schema_echoed_verbatim ["NEXT_PUBLIC_SUPABASE_URL=https://abc.supabase.co"]
    "CREATE TABLE artworks;" "https://abc.supabase.co" "abc"
    (by decide) (by decide) (by decide)

/-! ## Branch exclusivity machinery (C5, C10) -/

lemma appears_mem (l out : List String) (h : Appears l out) : ∀ x ∈ l, x ∈ out := by
  rcases h with ⟨a, b, rfl⟩
  intro x hx
  simp [hx]

/-- If two distinct lines of a block can occur in the output only at the
single position holding the echoed schema text, the block cannot appear. -/
lemma not_appears_two (L1 L2 : List String) (s : String) (l : List String) (p q : String)
    (hp : p ∈ l) (hq : q ∈ l) (hne : p ≠ q)
    (h1 : p ∉ L1) (h2 : p ∉ L2) (h3 : q ∉ L1) (h4 : q ∉ L2) :
    ¬ Appears l (L1 ++ s :: L2) := by
  intro h
  have hpmem := appears_mem _ _ h p hp
  have hqmem := appears_mem _ _ h q hq
  have hps : p = s := by
    rcases List.mem_append.mp hpmem with hh | hh
    · exact absurd hh h1
    · rcases List.mem_cons.mp hh with hh | hh
      · exact hh
      · exact absurd hh h2
  have hqs : q = s := by
    rcases List.mem_append.mp hqmem with hh | hh
    · exact absurd hh h3
    · rcases List.mem_cons.mp hh with hh | hh
      · exact hh
      · exact absurd hh h4
  exact hne (hps.trans hqs.symm)

/-- Two strings differ when the constant prefix of the first mismatches the
second within its constant part. -/
lemma strNe_left (a r q : String) (h : ¬ a.data <+: q.data) : a ++ r ≠ q := by
  intro he
  apply h
  have hd : a.data ++ r.data = q.data := by rw [← String.data_append, he]
  rw [← hd]
  exact List.prefix_append _ _

lemma strNe_left2 (a r s q : String) (h : ¬ a.data <+: q.data) : a ++ r ++ s ≠ q := by
  intro he
  apply h
  have hd : a.data ++ (r.data ++ s.data) = q.data := by
    rw [← List.append_assoc, ← String.data_append, ← String.data_append, he]
  rw [← hd]
  exact List.prefix_append _ _

/-- The printed redirect-URL line `"   " ++ callback_url u ++ "\n"` always
ends in `"/auth/v1/callback\n"`, so it differs from any string that does not. -/
lemma cbLine_ne (u q : String)
    (h : ¬ ("/auth/v1/callback".data ++ ['\n']) <:+ q.data) :
    "   " ++ callback_url u ++ "\n" ≠ q := by
  intro he
  apply h
  have hd : ("   ".data ++ removeRestV1 u.data) ++ ("/auth/v1/callback".data ++ ['\n'])
      = q.data := by
    rw [← he]
    simp only [callback_url, String.data_append, List.append_assoc]
  rw [← hd]
  exact List.suffix_append _ _

/-- First line of the missing-key guidance branch. -/
def kmA : String := "⚠️  SUPABASE_SERVICE_ROLE_KEY not found in .env"

/-- Second line of the missing-key guidance branch. -/
def kmB : String := "   Get it from: Settings > API > service_role key\n"

/-- First line of the dashboard-and-CLI branch. -/
def kfA : String := "✅ Service role key found"

/-- Second line of the dashboard-and-CLI branch. -/
def kfB : String := "\n⚠️  Note: Supabase JS/Python clients cannot execute raw SQL directly."

lemma kmA_not_preLines (pref url : String) : kmA ∉ preLines pref url := by
  intro hmem
  simp only [preLines, List.mem_cons, List.not_mem_nil, or_false] at hmem
  rcases hmem with h | h | h | h | h
  all_goals first
    | exact absurd h (by decide)
    | exact strNe_left "📋 Project Reference: " pref _ (by decide) h.symm
    | exact strNe_left2 "📋 Supabase URL: " url "\n" _ (by decide) h.symm

lemma kmB_not_preLines (pref url : String) : kmB ∉ preLines pref url := by
  intro hmem
  simp only [preLines, List.mem_cons, List.not_mem_nil, or_false] at hmem
  rcases hmem with h | h | h | h | h
  all_goals first
    | exact absurd h (by decide)
    | exact strNe_left "📋 Project Reference: " pref _ (by decide) h.symm
    | exact strNe_left2 "📋 Supabase URL: " url "\n" _ (by decide) h.symm

lemma kmA_not_keyFound (pref : String) : kmA ∉ keyFoundLines pref := by
  intro hmem
  simp only [keyFoundLines, List.mem_cons, List.not_mem_nil, or_false] at hmem
  rcases hmem with h | h | h | h | h | h | h | h | h | h | h | h
  all_goals first
    | exact absurd h (by decide)
    | exact strNe_left2 "   1. Go to: https://supabase.com/dashboard/project/" pref "/sql/new"
        _ (by decide) h.symm
    | exact strNe_left "   3. Link: supabase link --project-ref " pref _ (by decide) h.symm

lemma kmB_not_keyFound (pref : String) : kmB ∉ keyFoundLines pref := by
  intro hmem
  simp only [keyFoundLines, List.mem_cons, List.not_mem_nil, or_false] at hmem
  rcases hmem with h | h | h | h | h | h | h | h | h | h | h | h
  all_goals first
    | exact absurd h (by decide)
    | exact strNe_left2 "   1. Go to: https://supabase.com/dashboard/project/" pref "/sql/new"
        _ (by decide) h.symm
    | exact strNe_left "   3. Link: supabase link --project-ref " pref _ (by decide) h.symm

lemma kmA_not_postSql (pref u : String) : kmA ∉ postSqlLines pref (callback_url u) := by
  intro hmem
  simp only [postSqlLines, oauthLines, finalLines, List.mem_cons, List.mem_append,
    List.not_mem_nil, or_false] at hmem
  rcases hmem with h | (h | h | h | h | h | h | h | h | h | h | h | h | h | h | h | h | h) | h | h
  all_goals first
    | exact absurd h (by decide)
    | exact strNe_left2 "   Configure at: https://supabase.com/dashboard/project/" pref
        "/auth/providers\n" _ (by decide) h.symm
    | exact cbLine_ne u _ (by decide) h.symm
    | exact strNe_left "   - Set redirect URL to: " (callback_url u) _ (by decide) h.symm

lemma kmB_not_postSql (pref u : String) : kmB ∉ postSqlLines pref (callback_url u) := by
  intro hmem
  simp only [postSqlLines, oauthLines, finalLines, List.mem_cons, List.mem_append,
    List.not_mem_nil, or_false] at hmem
  rcases hmem with h | (h | h | h | h | h | h | h | h | h | h | h | h | h | h | h | h | h) | h | h
  all_goals first
    | exact absurd h (by decide)
    | exact strNe_left2 "   Configure at: https://supabase.com/dashboard/project/" pref
        "/auth/providers\n" _ (by decide) h.symm
    | exact cbLine_ne u _ (by decide) h.symm
    | exact strNe_left "   - Set redirect URL to: " (callback_url u) _ (by decide) h.symm

lemma kfA_not_preLines (pref url : String) : kfA ∉ preLines pref url := by
  intro hmem
  simp only [preLines, List.mem_cons, List.not_mem_nil, or_false] at hmem
  rcases hmem with h | h | h | h | h
  all_goals first
    | exact absurd h (by decide)
    | exact strNe_left "📋 Project Reference: " pref _ (by decide) h.symm
    | exact strNe_left2 "📋 Supabase URL: " url "\n" _ (by decide) h.symm

lemma kfB_not_preLines (pref url : String) : kfB ∉ preLines pref url := by
  intro hmem
  simp only [preLines, List.mem_cons, List.not_mem_nil, or_false] at hmem
  rcases hmem with h | h | h | h | h
  all_goals first
    | exact absurd h (by decide)
    | exact strNe_left "📋 Project Reference: " pref _ (by decide) h.symm
    | exact strNe_left2 "📋 Supabase URL: " url "\n" _ (by decide) h.symm

lemma kfA_not_postSql (pref u : String) : kfA ∉ postSqlLines pref (callback_url u) := by
  intro hmem
  simp only [postSqlLines, oauthLines, finalLines, List.mem_cons, List.mem_append,
    List.not_mem_nil, or_false] at hmem
  rcases hmem with h | (h | h | h | h | h | h | h | h | h | h | h | h | h | h | h | h | h) | h | h
  all_goals first
    | exact absurd h (by decide)
    | exact strNe_left2 "   Configure at: https://supabase.com/dashboard/project/" pref
        "/auth/providers\n" _ (by decide) h.symm
    | exact cbLine_ne u _ (by decide) h.symm
    | exact strNe_left "   - Set redirect URL to: " (callback_url u) _ (by decide) h.symm

lemma kfB_not_postSql (pref u : String) : kfB ∉ postSqlLines pref (callback_url u) := by
  intro hmem
  simp only [postSqlLines, oauthLines, finalLines, List.mem_cons, List.mem_append,
    List.not_mem_nil, or_false] at hmem
  rcases hmem with h | (h | h | h | h | h | h | h | h | h | h | h | h | h | h | h | h | h) | h | h
  all_goals first
    | exact absurd h (by decide)
    | exact strNe_left2 "   Configure at: https://supabase.com/dashboard/project/" pref
        "/auth/providers\n" _ (by decide) h.symm
    | exact cbLine_ne u _ (by decide) h.symm
    | exact strNe_left "   - Set redirect URL to: " (callback_url u) _ (by decide) h.symm

lemma appears_keyFound (pref url sql cb : String) :
    Appears (keyFoundLines pref) (successOut pref url sql cb true) :=
  ⟨preLines pref url, ["📋 SQL Schema to Execute:", sep60] ++ sql :: postSqlLines pref cb,
   by simp [successOut, List.append_assoc]⟩

lemma appears_keyMissing (pref url sql cb : String) :
    Appears keyMissingLines (successOut pref url sql cb false) :=
  ⟨preLines pref url, ["📋 SQL Schema to Execute:", sep60] ++ sql :: postSqlLines pref cb,
   by simp [successOut, List.append_assoc]⟩

lemma not_appears_keyMissing (pref url sql : String) :
    ¬ Appears keyMissingLines (successOut pref url sql (callback_url url) true) := by
  have hout : successOut pref url sql (callback_url url) true
      = (preLines pref url ++ keyFoundLines pref ++ ["📋 SQL Schema to Execute:", sep60])
        ++ sql :: postSqlLines pref (callback_url url) := by
    simp [successOut, List.append_assoc]
  rw [hout]
  apply not_appears_two _ _ _ _ kmA kmB (by simp [keyMissingLines, kmA])
    (by simp [keyMissingLines, kmB]) (by decide)
  · intro hmem
    rcases List.mem_append.mp hmem with hm | hm
    · rcases List.mem_append.mp hm with hm2 | hm2
      · exact kmA_not_preLines pref url hm2
      · exact kmA_not_keyFound pref hm2
    · exact absurd hm (by decide)
  · exact kmA_not_postSql pref url
  · intro hmem
    rcases List.mem_append.mp hmem with hm | hm
    · rcases List.mem_append.mp hm with hm2 | hm2
      · exact kmB_not_preLines pref url hm2
      · exact kmB_not_keyFound pref hm2
    · exact absurd hm (by decide)
  · exact kmB_not_postSql pref url

lemma not_appears_keyFound (pref url sql r' : String) :
    ¬ Appears (keyFoundLines r') (successOut pref url sql (callback_url url) false) := by
  have hout : successOut pref url sql (callback_url url) false
      = (preLines pref url ++ keyMissingLines ++ ["📋 SQL Schema to Execute:", sep60])
        ++ sql :: postSqlLines pref (callback_url url) := by
    simp [successOut, List.append_assoc]
  rw [hout]
  apply not_appears_two _ _ _ _ kfA kfB (by simp [keyFoundLines, kfA])
    (by simp [keyFoundLines, kfB]) (by decide)
  · intro hmem
    rcases List.mem_append.mp hmem with hm | hm
    · rcases List.mem_append.mp hm with hm2 | hm2
      · exact kfA_not_preLines pref url hm2
      · exact absurd hm2 (by decide)
    · exact absurd hm (by decide)
  · exact kfA_not_postSql pref url
  · intro hmem
    rcases List.mem_append.mp hmem with hm | hm
    · rcases List.mem_append.mp hm with hm2 | hm2
      · exact kfB_not_preLines pref url hm2
      · exact absurd hm2 (by decide)
    · exact absurd hm (by decide)
  · exact kfB_not_postSql pref url

/-! ## Claims C5 and C10 -/

/-- C5 (amended): on every run that reaches the instruction printer (i.e.
completes with exit code 0), exactly one of the two guidance branches is
printed: the dashboard-and-CLI block exactly when the secret value is truthy,
the missing-key block exactly otherwise; the other branch appears nowhere in
the output. -/
theorem C5_branch_exclusive (lines : List String) (sql url pref : String)
    (hu : envGet (parseLines lines) "NEXT_PUBLIC_SUPABASE_URL" = some url)
    (hne : url ≠ "")
    (hx : extract_project_ref url = some pref) :
    (truthy (envGet (parseLines lines) "SUPABASE_SERVICE_ROLE_KEY") = true →
      Appears (keyFoundLines pref) (mainRun (some lines) (some sql)).out ∧
      ¬ Appears keyMissingLines (mainRun (some lines) (some sql)).out) ∧
    (truthy (envGet (parseLines lines) "SUPABASE_SERVICE_ROLE_KEY") = false →
      Appears keyMissingLines (mainRun (some lines) (some sql)).out ∧
      ∀ r', ¬ Appears (keyFoundLines r') (mainRun (some lines) (some sql)).out) := by
  rw [mainRun_success lines sql url pref hu hne hx]
  constructor
  · intro ht
    rw [ht]
    exact ⟨appears_keyFound pref url sql (callback_url url),
      not_appears_keyMissing pref url sql⟩
  · intro ht
    rw [ht]
    exact ⟨appears_keyMissing pref url sql (callback_url url),
      fun r' => not_appears_keyFound pref url sql r'⟩

/-- Witness for C5 on a configuration with both keys present. -/
theorem C5_branch_exclusive_witness :
    Appears (keyFoundLines "abc")
      (mainRun (some ["NEXT_PUBLIC_SUPABASE_URL=https://abc.supabase.co",
                      "SUPABASE_SERVICE_ROLE_KEY=secret"]) (some "sql")).out ∧
    ¬ Appears keyMissingLines
      (mainRun (some ["NEXT_PUBLIC_SUPABASE_URL=https://abc.supabase.co",
                      "SUPABASE_SERVICE_ROLE_KEY=secret"]) (some "sql")).out :=
  (C5_branch_exclusive
      ["NEXT_PUBLIC_SUPABASE_URL=https://abc.supabase.co", "SUPABASE_SERVICE_ROLE_KEY=secret"]
      "sql" "https://abc.supabase.co" "abc" (by decide) (by decide) (by decide)).1 (by decide)

/-- C5 counterexample to the claim as stated ("for every single run"): a run
whose configuration has the secret present but no URL exits before the printer
and prints neither guidance branch, so it is false that the output then
includes the dashboard-and-CLI branch (and false that exactly one branch is
printed). -/
theorem C5_counterexample :
    truthy (envGet (parseLines ["SUPABASE_SERVICE_ROLE_KEY=k"]) "SUPABASE_SERVICE_ROLE_KEY")
        = true ∧
    (mainRun (some ["SUPABASE_SERVICE_ROLE_KEY=k"]) (some "sql")).out
        = [banner, "❌ NEXT_PUBLIC_SUPABASE_URL not found in .env"] ∧
    (∀ r', ¬ Appears (keyFoundLines r')
        (mainRun (some ["SUPABASE_SERVICE_ROLE_KEY=k"]) (some "sql")).out) ∧
    ¬ Appears keyMissingLines
        (mainRun (some ["SUPABASE_SERVICE_ROLE_KEY=k"]) (some "sql")).out := by
  refine ⟨by decide, by decide, ?_, ?_⟩
  · intro r' hap
    have hm := appears_mem _ _ hap kfA (by simp [keyFoundLines, kfA])
    revert hm
    decide
  · intro hap
    have hm := appears_mem _ _ hap kmA (by simp [keyMissingLines, kmA])
    revert hm
    decide

/-- C10: a key bound to the empty string is treated exactly as if absent: an
empty URL value triggers the missing-URL-key error and exit 1, and an empty
secret value selects the missing-key guidance branch, never the
dashboard-and-CLI branch. -/
theorem C10_empty_treated_as_absent (lines : List String) (schemaFile : Option String) :
    (envGet (parseLines lines) "NEXT_PUBLIC_SUPABASE_URL" = some "" →
      (mainRun (some lines) schemaFile).exitCode = 1 ∧
      "❌ NEXT_PUBLIC_SUPABASE_URL not found in .env" ∈ (mainRun (some lines) schemaFile).out) ∧
    (∀ sql url pref, schemaFile = some sql →
      envGet (parseLines lines) "NEXT_PUBLIC_SUPABASE_URL" = some url → url ≠ "" →
      extract_project_ref url = some pref →
      envGet (parseLines lines) "SUPABASE_SERVICE_ROLE_KEY" = some "" →
      Appears keyMissingLines (mainRun (some lines) schemaFile).out ∧
      ∀ r', ¬ Appears (keyFoundLines r') (mainRun (some lines) schemaFile).out) := by
  constructor
  · intro hu
    have ht : truthy (envGet (parseLines lines) "NEXT_PUBLIC_SUPABASE_URL") = false := by
      rw [hu]; rfl
    rw [mainRun_missing_url lines schemaFile ht]
    exact ⟨rfl, by simp⟩
  · rintro sql url pref rfl hu hne hx hk
    have hkt : truthy (envGet (parseLines lines) "SUPABASE_SERVICE_ROLE_KEY") = false := by
      rw [hk]; rfl
    rw [mainRun_success lines sql url pref hu hne hx, hkt]
    exact ⟨appears_keyMissing pref url sql (callback_url url),
      fun r' => not_appears_keyFound pref url sql r'⟩

/-- Witness for C10: an `.env` with a valid URL and an empty secret value. -/
theorem C10_empty_treated_as_absent_witness :
    Appears keyMissingLines
      (mainRun (some ["NEXT_PUBLIC_SUPABASE_URL=https://abc.supabase.co",
                      "SUPABASE_SERVICE_ROLE_KEY="]) (some "sql")).out ∧
    ∀ r', ¬ Appears (keyFoundLines r')
      (mainRun (some ["NEXT_PUBLIC_SUPABASE_URL=https://abc.supabase.co",
                      "SUPABASE_SERVICE_ROLE_KEY="]) (some "sql")).out :=
  (C10_empty_treated_as_absent
      ["NEXT_PUBLIC_SUPABASE_URL=https://abc.supabase.co", "SUPABASE_SERVICE_ROLE_KEY="]
      (some "sql")).2 "sql" "https://abc.supabase.co" "abc" rfl
    (by decide) (by decide) (by decide) (by decide)

/-! ## Claim C2 -/

/-- C2 (amended): on every run, all output — formatted instructions, echoed
SQL, and error messages alike — is written to standard output; nothing is ever
written to standard error.  The exit code is 0 on success and 1 on any handled
failure, every failing run prints a message starting with the error indicator
`❌` on standard output, and every successful run echoes the schema text to
standard output. -/
theorem C2_streams_and_exit (envFile : Option (List String)) (schemaFile : Option String) :
    (mainRun envFile schemaFile).err = [] ∧
    ((mainRun envFile schemaFile).exitCode = 0 ∨ (mainRun envFile schemaFile).exitCode = 1) ∧
    ((mainRun envFile schemaFile).exitCode = 1 →
      ∃ m ∈ (mainRun envFile schemaFile).out, "❌".data <+: m.data) ∧
    (∀ sql, schemaFile = some sql → (mainRun envFile schemaFile).exitCode = 0 →
      sql ∈ (mainRun envFile schemaFile).out) := by
  cases envFile with
  | none =>
    refine ⟨rfl, Or.inr rfl, fun _ => ?_, fun sql hs h0 => absurd h0 (by simp [mainRun, load_env])⟩
    exact ⟨"❌ Error: " ++ ".env file not found", by simp [mainRun, load_env], by decide⟩
  | some lines =>
    cases ht : truthy (envGet (parseLines lines) "NEXT_PUBLIC_SUPABASE_URL") with
    | false =>
      rw [mainRun_missing_url lines schemaFile ht]
      refine ⟨rfl, Or.inr rfl, fun _ => ?_, fun sql hs h0 => by simp at h0⟩
      exact ⟨"❌ NEXT_PUBLIC_SUPABASE_URL not found in .env", by simp, by decide⟩
    | true =>
      obtain ⟨url, hu, hne⟩ : ∃ url,
          envGet (parseLines lines) "NEXT_PUBLIC_SUPABASE_URL" = some url ∧ url ≠ "" := by
        cases hg : envGet (parseLines lines) "NEXT_PUBLIC_SUPABASE_URL" with
        | none => rw [hg] at ht; exact absurd ht (by simp [truthy])
        | some u =>
          refine ⟨u, rfl, ?_⟩
          rw [hg] at ht
          intro hu0
          rw [hu0] at ht
          exact absurd ht (by decide)
      cases hx : extract_project_ref url with
      | none =>
        rw [mainRun_invalid_url lines schemaFile url hu hne hx]
        refine ⟨rfl, Or.inr rfl, fun _ => ?_, fun sql hs h0 => by simp at h0⟩
        exact ⟨"❌ Invalid Supabase URL format", by simp, by decide⟩
      | some pref =>
        cases schemaFile with
        | none =>
          rw [mainRun_no_schema lines url pref hu hne hx]
          refine ⟨rfl, Or.inr rfl, fun _ => ?_, fun sql hs h0 => by simp at hs⟩
          exact ⟨"❌ supabase/schema.sql not found", by simp, by decide⟩
        | some sql =>
          rw [mainRun_success lines sql url pref hu hne hx]
          refine ⟨rfl, Or.inl rfl, fun h1 => by simp at h1, ?_⟩
          rintro sql' h' h0
          have hsql : sql' = sql := by
            have := h'
            simp at this
            exact this.symm
          subst hsql
          simp [successOut, postSqlLines]

/-- Witness for C2 at a failing run: the error message appears on standard
output and the error stream stays empty. -/
theorem C2_streams_and_exit_witness :
    (mainRun none (some "sql")).err = [] ∧
    ∃ m ∈ (mainRun none (some "sql")).out, "❌".data <+: m.data :=
  ⟨(C2_streams_and_exit none (some "sql")).1,
    (C2_streams_and_exit none (some "sql")).2.2.1 (by decide)⟩

/-- C2 counterexample to the claim as stated: the run with a missing `.env`
file is a handled failure (exit code 1) whose error message is written to
standard output, while standard error stays empty — error messages are not
written to standard error. -/
theorem C2_counterexample :
    (mainRun none (some "sql")).exitCode = 1 ∧
    ("❌ Error: " ++ ".env file not found") ∈ (mainRun none (some "sql")).out ∧
    (mainRun none (some "sql")).err = [] := by
  decide

/-! ## Claim C1: the callback URL -/

lemma removeRestV1_no_occ : ∀ s, findPat s = none → removeRestV1 s = s := by
  intro s
  induction s with
  | nil => intro _; rw [removeRestV1]
  | cons c t ih =>
    intro h
    rw [findPat] at h
    by_cases hp : restV1.isPrefixOf (c :: t)
    · rw [if_pos hp] at h
      exact absurd h (by simp)
    · rw [if_neg hp] at h
      rw [removeRestV1, if_neg hp]
      cases hft : findPat t with
      | none => rw [ih hft]
      | some j =>
        rw [hft] at h
        exact absurd h (by simp)

lemma removeRestV1_at_findPat : ∀ (s : List Char) (i : Nat), findPat s = some i →
    removeRestV1 s = s.take i ++ removeRestV1 (s.drop (i + restV1.length)) := by
  intro s
  induction s with
  | nil => intro i h; exact absurd h (by simp [findPat])
  | cons c t ih =>
    intro i h
    rw [findPat] at h
    by_cases hp : restV1.isPrefixOf (c :: t)
    · rw [if_pos hp] at h
      have hi : i = 0 := by
        have : (some 0 : Option Nat) = some i := h
        simpa using this.symm
      subst hi
      rw [removeRestV1, if_pos hp]
      simp
    · rw [if_neg hp] at h
      cases hft : findPat t with
      | none =>
        rw [hft] at h
        exact absurd h (by simp)
      | some j =>
        rw [hft] at h
        have hi : i = j + 1 := by
          have : some (j + 1) = some i := h
          simpa using this.symm
        subst hi
        have harith : j + 1 + restV1.length = (j + restV1.length) + 1 := by omega
        rw [removeRestV1, if_neg hp, ih j hft, harith, List.drop_succ_cons,
          List.take_succ_cons]
        simp

lemma removeAllSpec_of_none (s : List Char) (h : findPat s = none) :
    removeAllSpec s = s := by
  rw [removeAllSpec.eq_def]
  split
  · rfl
  · rename_i i hi
    rw [h] at hi
    exact absurd hi (by simp)

lemma removeAllSpec_of_some (s : List Char) (i : Nat) (h : findPat s = some i) :
    removeAllSpec s = s.take i ++ removeAllSpec (s.drop (i + restV1.length)) := by
  rw [removeAllSpec.eq_def]
  split
  · rename_i hnone
    rw [h] at hnone
    exact absurd hnone (by simp)
  · rename_i j hj
    rw [h] at hj
    have : i = j := by
      have := hj
      simpa using this
    rw [this]

/-- The scan of `str.replace` computes exactly the repeated deletion of the
leftmost occurrence. -/
lemma removeRestV1_eq_removeAllSpec (s : List Char) : removeRestV1 s = removeAllSpec s := by
  induction s using removeAllSpec.induct with
  | case1 s h => rw [removeAllSpec_of_none s h, removeRestV1_no_occ s h]
  | case2 s i h ih =>
    rw [removeAllSpec_of_some s i h, removeRestV1_at_findPat s i h, ih]

/-- C1 counterexample: for a URL in which `/rest/v1` occurs but not as a
suffix, the code removes the occurrence anyway, so the derived callback URL
differs from the claim's suffix-only description (`specSuffixCallback`). -/
theorem C1_counterexample :
    callback_url "https://x.supabase.co/rest/v1/api"
        ≠ specSuffixCallback "https://x.supabase.co/rest/v1/api" ∧
    callback_url "https://x.supabase.co/rest/v1/api"
        = "https://x.supabase.co/api/auth/v1/callback" ∧
    specSuffixCallback "https://x.supabase.co/rest/v1/api"
        = "https://x.supabase.co/rest/v1/api/auth/v1/callback" := by
  have h1 : findPat "https://x.supabase.co/rest/v1/api".data = some 21 := by decide
  have hrem : removeRestV1 "https://x.supabase.co/rest/v1/api".data
      = "https://x.supabase.co/api".data := by
    rw [removeRestV1_at_findPat _ 21 h1,
      removeRestV1_no_occ ("https://x.supabase.co/rest/v1/api".data.drop (21 + restV1.length))
        (by decide)]
    decide
  refine ⟨?_, ?_, by decide⟩
  · rw [callback_url, hrem]
    decide
  · rw [callback_url, hrem]
    decide

/-- C1 (amended): the derived callback URL equals the configured URL with
every occurrence of `/rest/v1` removed — obtained by repeatedly deleting the
leftmost occurrence — followed by `/auth/v1/callback`; in particular a URL
containing no occurrence is passed through unchanged. -/
theorem C1_callback_removes_all (url : String) :
    callback_url url = String.mk (removeAllSpec url.data) ++ "/auth/v1/callback" ∧
    (findPat url.data = none → callback_url url = url ++ "/auth/v1/callback") := by
  constructor
  · rw [callback_url, removeRestV1_eq_removeAllSpec]
  · intro h
    rw [callback_url, removeRestV1_no_occ _ h]

/-- Witness for C1 on a URL without any `/rest/v1` occurrence. -/
theorem C1_callback_removes_all_witness :
    callback_url "https://abc.supabase.co" = "https://abc.supabase.co" ++ "/auth/v1/callback" :=
  (C1_callback_removes_all "https://abc.supabase.co").2 (by decide)

/-! ## Claim C8: the `.env` parser -/

lemma find?_append_of_all_false (a b : List (String × String)) (p : String × String → Bool)
    (ha : ∀ x ∈ a, p x = false) : (a ++ b).find? p = b.find? p := by
  induction a with
  | nil => rfl
  | cons x xs ih =>
    rw [List.cons_append, List.find?_cons]
    rw [ha x (List.mem_cons_self _ _)]
    exact ih (fun y hy => ha y (List.mem_cons_of_mem _ hy))

lemma splitOnceEq_first (k v : List Char) (hk : '=' ∉ k) :
    splitOnceEq (k ++ '=' :: v) = some (k, v) := by
  induction k with
  | nil =>
    rw [List.nil_append, splitOnceEq]
    simp
  | cons c k' ih =>
    have hc : c ≠ '=' := fun hh => hk (hh ▸ List.mem_cons_self _ _)
    rw [List.cons_append, splitOnceEq, if_neg hc,
      ih (fun hh => hk (List.mem_cons_of_mem _ hh))]
    rfl

lemma parseLine_skip (line : String)
    (h : strip line.data = [] ∨ (strip line.data).head? = some '#') :
    parseLine line = none := by
  rw [parseLine]
  rcases h with h | h <;> simp [h]

lemma envGet_last_wins (pre : List String) (l : String) (post : List String)
    (k v : String)
    (hl : parseLine l = some (k, v))
    (hpost : ∀ l' ∈ post, ∀ k' v', parseLine l' = some (k', v') → k' ≠ k) :
    envGet (parseLines (pre ++ l :: post)) k = some v := by
  have hsplit : parseLines (pre ++ l :: post)
      = parseLines pre ++ (k, v) :: parseLines post := by
    rw [parseLines, List.filterMap_append, List.filterMap_cons, hl]
    rfl
  rw [envGet, hsplit]
  have hrev : (parseLines pre ++ (k, v) :: parseLines post).reverse
      = (parseLines post).reverse ++ (k, v) :: (parseLines pre).reverse := by
    simp
  rw [hrev]
  have hfalse : ∀ x ∈ (parseLines post).reverse, (x.1 == k) = false := by
    intro x hx
    rw [List.mem_reverse] at hx
    rcases List.mem_filterMap.mp hx with ⟨l', hl', hpl'⟩
    have := hpost l' hl' x.1 x.2 (by rw [hpl'])
    simpa using this
  rw [find?_append_of_all_false _ _ _ hfalse, List.find?_cons]
  simp

/-- C8 counterexample: when two qualifying lines share a key, the later one
overwrites the earlier, so the mapping does not contain an entry for every
qualifying `KEY=VALUE` line — the entry of `"A=1"` is gone. -/
theorem C8_counterexample :
    parseLine "A=1" = some ("A", "1") ∧
    "A=1" ∈ ["A=1", "A=2"] ∧
    envGet (parseLines ["A=1", "A=2"]) "A" = some "2" ∧
    envGet (parseLines ["A=1", "A=2"]) "A" ≠ some "1" := by
  decide

/-- C8 (amended): `load_env` fails with an error naming the missing file when
the file is absent; otherwise it parses each non-empty, non-comment line of
the form `KEY=VALUE` by splitting on the first `'='` (so values may contain
`'='`), ignores blank lines and lines starting with `'#'`, and — amended —
when several such lines share a key, the mapping holds the value of the last
one: the mapping contains an entry for each qualifying line whose key does
not recur in a later qualifying line. -/
theorem C8_env_loader :
    load_env none = Except.error ".env file not found" ∧
    (∀ lines, load_env (some lines) = Except.ok (parseLines lines)) ∧
    (∀ k v : List Char, '=' ∉ k → splitOnceEq (k ++ '=' :: v) = some (k, v)) ∧
    (∀ line : String, strip line.data = [] ∨ (strip line.data).head? = some '#' →
      parseLine line = none) ∧
    (∀ pre (l : String) post k v, parseLine l = some (k, v) →
      (∀ l' ∈ post, ∀ k' v', parseLine l' = some (k', v') → k' ≠ k) →
      envGet (parseLines (pre ++ l :: post)) k = some v) :=
  ⟨rfl, fun _ => rfl, splitOnceEq_first, parseLine_skip, envGet_last_wins⟩

/-- Witness for C8: comments and blank lines are skipped, whitespace is
stripped, and the value keeps its embedded `'='`. -/
theorem C8_env_loader_witness :
    envGet (parseLines (["# note", ""] ++ " A = b=c " :: [])) "A" = some "b=c" :=
  C8_env_loader.2.2.2.2 ["# note", ""] " A = b=c " [] "A" "b=c" (by decide)
    (by simp)
